import Mathlib

/-!
Verification development for the download orchestrator of `spotify-dl`
(`src/download.rs`, `src/main.rs`).

Modelling conventions:
* `Duration` (Rust `std::time::Duration`, non-negative) is modelled as `ℚ≥0`
  (seconds); `Duration::ZERO` is `0`, `is_zero` is `= 0`.
* `Instant` (Rust monotonic clock) is modelled as `ℚ`; `Instant::now()` becomes
  an explicit `now : ℚ` argument to each operation that reads the clock.
* `f64` is modelled as `F64`: an exact rational together with the non-finite
  values `nan`, `posInf`, `negInf`.  Rounding of `f64` arithmetic is idealised
  as exact rational arithmetic; the spec's formulas are stated at the same
  level of idealisation, so the comparison is faithful.
* The async mutex in the Rust code serialises each `RateLimiter` operation;
  each operation is therefore modelled as a pure function
  `config → now → state → (result × state)` describing one atomic critical
  section.
-/

/-- Model of Rust `f64`: an exact rational, or one of the non-finite values. -/
inductive F64 where
  | finite (q : ℚ)
  | nan
  | posInf
  | negInf
deriving DecidableEq

/-- Rust `f64::is_finite`. -/
def F64.isFinite : F64 → Bool
  | .finite _ => true
  | _ => false

/-- Rust `f64::max`: returns the other operand when one is NaN. -/
def F64.fmax : F64 → F64 → F64
  | .nan, y => y
  | x, .nan => x
  | .posInf, _ => .posInf
  | _, .posInf => .posInf
  | .negInf, y => y
  | x, .negInf => x
  | .finite a, .finite b => .finite (max a b)

/-- Rust `f64::min`: returns the other operand when one is NaN. -/
def F64.fmin : F64 → F64 → F64
  | .nan, y => y
  | x, .nan => x
  | .negInf, _ => .negInf
  | _, .negInf => .negInf
  | .posInf, y => y
  | x, .posInf => x
  | .finite a, .finite b => .finite (min a b)

/-- IEEE `f64` multiplication on the model (0 × ∞ = NaN). -/
def F64.mul : F64 → F64 → F64
  | .nan, _ => .nan
  | _, .nan => .nan
  | .posInf, .posInf => .posInf
  | .posInf, .negInf => .negInf
  | .negInf, .posInf => .negInf
  | .negInf, .negInf => .posInf
  | .posInf, .finite b => if 0 < b then .posInf else if b < 0 then .negInf else .nan
  | .finite a, .posInf => if 0 < a then .posInf else if a < 0 then .negInf else .nan
  | .negInf, .finite b => if 0 < b then .negInf else if b < 0 then .posInf else .nan
  | .finite a, .negInf => if 0 < a then .negInf else if a < 0 then .posInf else .nan
  | .finite a, .finite b => .finite (a * b)

/-- Rust `Duration::as_secs_f64` on the model. -/
def durationToF64 (d : ℚ≥0) : F64 := .finite (d : ℚ)

/-- Rust `Duration::from_secs_f64` on the model.  The Rust function panics on
negative or non-finite input; the model returns `0` there.  Every call site in
the embedded code is proved (`on_failure_clamped_finite_nonneg`) to pass a
finite non-negative value, so the junk value is never produced. -/
def F64.toDuration : F64 → ℚ≥0
  | .finite q => q.toNNRat
  | _ => 0

/-- `RateLimitConfig` from `src/download.rs` (delays in seconds, as `ℚ≥0`). -/
structure RateLimitConfig where
  base_delay : ℚ≥0
  multiplier : F64
  max_delay : ℚ≥0
  reset_after_success : Bool
deriving DecidableEq

/-- `RateLimitConfig::new`: normalises a non-finite multiplier to `1.0`,
floors the multiplier at `1.0`, and raises `max_delay` to `base_delay` when
smaller.  Total: no input is rejected. -/
def RateLimitConfig.new (base_delay : ℚ≥0) (multiplier : F64) (max_delay : ℚ≥0) :
    RateLimitConfig :=
  let multiplier := if multiplier.isFinite then multiplier else .finite 1
  let multiplier := multiplier.fmax (.finite 1)
  let max_delay := if max_delay < base_delay then base_delay else max_delay
  { base_delay := base_delay
    multiplier := multiplier
    max_delay := max_delay
    reset_after_success := true }

/-- `RateLimitConfig::disabled`. -/
def RateLimitConfig.disabled : RateLimitConfig :=
  { base_delay := 0
    multiplier := .finite 1
    max_delay := 0
    reset_after_success := true }

/-- `RateLimitConfig::is_enabled`: `!self.base_delay.is_zero()`. -/
def RateLimitConfig.is_enabled (c : RateLimitConfig) : Bool :=
  decide (c.base_delay ≠ 0)

/-- `RateLimiterState`: `current_delay` and the optional absolute deadline. -/
structure RateLimiterState where
  current_delay : ℚ≥0
  next_ready : Option ℚ
deriving DecidableEq

/-- `RateLimiterState::default()`. -/
def RateLimiterState.default : RateLimiterState :=
  { current_delay := 0, next_ready := none }

namespace RateLimiter

/-- One evaluation of the loop body of `RateLimiter::wait_ready` (the critical
section that snapshots `next_ready`), at clock value `now`.
Result `(some d, s)` means the worker will suspend for `d` (or, when `d = 0`,
`continue`) and re-check; `(none, s)` means `wait_ready` returns.
When the config is disabled the function returns before entering the loop,
which is the `(none, state)` case. -/
def wait_ready_step (config : RateLimitConfig) (now : ℚ) (state : RateLimiterState) :
    Option ℚ≥0 × RateLimiterState :=
  if config.is_enabled = false then (none, state)
  else
    match state.next_ready with
    | some next_ready =>
        if now < next_ready then (some (next_ready - now).toNNRat, state)
        else (none, { state with next_ready := none })
    | none => (none, state)

/-- `RateLimiter::on_failure` at clock value `now`: returns the delay and the
updated state. -/
def on_failure (config : RateLimitConfig) (now : ℚ) (state : RateLimiterState) :
    ℚ≥0 × RateLimiterState :=
  if config.is_enabled = false then (0, state)
  else
    let next_delay : ℚ≥0 :=
      if state.current_delay = 0 then config.base_delay
      else
        let scaled := (durationToF64 state.current_delay).mul
          (config.multiplier.fmax (.finite 1))
        let clamped := (scaled.fmax (durationToF64 config.base_delay)).fmin
          (durationToF64 (max config.max_delay config.base_delay))
        clamped.toDuration
    if next_delay = 0 then
      (0, { current_delay := 0, next_ready := none })
    else
      let proposed_ready := now + (next_delay : ℚ)
      let new_ready : Option ℚ :=
        match state.next_ready with
        | some existing =>
            if proposed_ready < existing then some existing else some proposed_ready
        | none => some proposed_ready
      (next_delay, { current_delay := next_delay, next_ready := new_ready })

/-- `RateLimiter::on_success` at clock value `now`. -/
def on_success (config : RateLimitConfig) (now : ℚ) (state : RateLimiterState) :
    RateLimiterState :=
  if config.is_enabled = false then state
  else if config.reset_after_success = false then state
  else
    match state.next_ready with
    | some next =>
        if now < next then state
        else { current_delay := 0, next_ready := none }
    | none => { current_delay := 0, next_ready := none }

end RateLimiter

/-!
## Job pipeline (`Downloader::download_track`, `buffer_track`, `download_tracks`)

The external collaborators (metadata resolver, stream opener, encoder, file
writer, tag reader/writer) are modelled as per-job outcome fields of `JobEnv`:
each field records what the corresponding `await`ed call would return for this
job.  `download_track` is then a pure function from the environment to the
job's `Result` together with its observable effects (whether the stream source
was invoked, and the ordered list of `RateLimiter` calls it makes).
-/

/-- `StreamEvent` from `src/stream.rs`, as consumed in `buffer_track`:
`Write { bytes, total, content }`, `Finished`, `Error(detail)`,
`Retry { attempt, max_attempts }`.  `content` is a `Vec<i32>` chunk. -/
inductive StreamEvent where
  | write (bytes : ℕ) (total : ℕ) (content : List Int)
  | finished
  | error (detail : String)
  | retry (attempt : ℕ) (max_attempts : ℕ)
deriving DecidableEq

/-- The observable per-job progress-bar state touched by `buffer_track`:
`set_position` and `set_message`. -/
structure ProgressModel where
  position : ℕ
  message : String
deriving DecidableEq

/-- `Downloader::buffer_track`: consume the event sequence until `Finished`
(or channel close: `rx.recv()` returning `None`, i.e. the empty list), append
each `Write` chunk to the sample accumulator and move the progress position to
`bytes`; `Retry` only rewrites the displayed message; `Error` aborts with
`Err`.  `label` is `metadata.to_string()`. -/
def buffer_track (label : String) :
    List StreamEvent → ProgressModel → List Int →
    Except String (List Int × ProgressModel)
  | [], _pb, samples => .ok (samples, _pb)
  | e :: rest, pb, samples =>
    match e with
    | .write bytes _total content =>
        buffer_track label rest { pb with position := bytes } (samples ++ content)
    | .finished => .ok (samples, pb)
    | .error detail => .error ("Streaming error: " ++ detail)
    | .retry attempt max_attempts =>
        buffer_track label rest
          { pb with message :=
              "Retrying (" ++ toString attempt ++ "/" ++ toString max_attempts ++ ") "
                ++ label }
          samples

instance {α β : Type} [DecidableEq α] [DecidableEq β] : DecidableEq (Except α β) :=
  fun x y =>
    match x, y with
    | .ok a, .ok b =>
        if h : a = b then .isTrue (by rw [h]) else .isFalse (by simp [h])
    | .error a, .error b =>
        if h : a = b then .isTrue (by rw [h]) else .isFalse (by simp [h])
    | .ok _, .error _ => .isFalse (by simp)
    | .error _, .ok _ => .isFalse (by simp)

/-- The `RateLimiter` methods a job may call, in call order. -/
inductive LimiterCall where
  | waitReady
  | onFailure
  | onSuccess
deriving DecidableEq

/-- Outcomes of the external calls made on behalf of one job (one field per
`await` site in `download_track`), plus the filesystem facts it consults. -/
structure JobEnv where
  /-- `track.metadata(&self.session)`: `Ok` carries `metadata.to_string()`,
  the track label used for the filename. -/
  metadata : Except String String
  /-- `destination.join(filename).to_str()`: `none` models a non-UTF-8 path. -/
  path_str : Option String
  /-- `PathBuf::from(&path).exists()`. -/
  path_exists : Bool
  /-- `stream.stream(track)`: `Ok` carries the event sequence the returned
  channel will deliver. -/
  stream_open : Except String (List StreamEvent)
  /-- `encoder.encode(samples)`. -/
  encode : Except String Unit
  /-- `stream.write_to_file(&path)`. -/
  write_to_file : Except String Unit
  /-- `metadata.tags()`. -/
  tags : Except String Unit
  /-- `encoder::tags::store_tags(path, &tags, options.format)`. -/
  store_tags : Except String Unit
deriving DecidableEq

/-- What one `download_track` call returns and observably does. -/
structure TrackOutcome where
  /-- The `Result<()>` value of the call. -/
  result : Except String Unit
  /-- Whether `stream.stream(track)` was invoked. -/
  stream_invoked : Bool
  /-- The `RateLimiter` calls made, in order. -/
  limiter_calls : List LimiterCall
deriving DecidableEq

/-- `Downloader::download_track` (control flow of `src/download.rs`, lines
243–311), for one job with external outcomes `env` and the `force` option.
`?` on `metadata`, `encode`, `write_to_file`, `tags` and `store_tags`
propagates the error; stream-open and buffering failures are caught, reported,
followed by `backoff_after_failure` (which calls `on_failure`), and the
function returns `Ok(())`. -/
def download_track (env : JobEnv) (force : Bool) : TrackOutcome :=
  match env.metadata with
  | .error e => ⟨.error e, false, [.waitReady]⟩
  | .ok label =>
    match env.path_str with
    | none => ⟨.error "Could not set the output path", false, [.waitReady]⟩
    | some _path =>
      if force = false ∧ env.path_exists = true then
        ⟨.ok (), false, [.waitReady, .onSuccess]⟩
      else
        match env.stream_open with
        | .error _ => ⟨.ok (), true, [.waitReady, .onFailure]⟩
        | .ok events =>
          match buffer_track label events ⟨0, label⟩ [] with
          | .error _ => ⟨.ok (), true, [.waitReady, .onFailure]⟩
          | .ok _samples =>
            match env.encode with
            | .error e => ⟨.error e, true, [.waitReady]⟩
            | .ok _ =>
              match env.write_to_file with
              | .error e => ⟨.error e, true, [.waitReady]⟩
              | .ok _ =>
                match env.tags with
                | .error e => ⟨.error e, true, [.waitReady]⟩
                | .ok _ =>
                  match env.store_tags with
                  | .error e => ⟨.error e, true, [.waitReady]⟩
                  | .ok _ => ⟨.ok (), true, [.waitReady, .onSuccess]⟩

/-- `Downloader::download_tracks`: run every job and collect the results
(`try_collect`), failing as soon as some job's `Result` is `Err`.
`buffer_unordered` completes jobs in a nondeterministic order; the model
folds in list order, which realises one admissible schedule — the properties
proved below (`Err` ⇔ some job erred) are schedule-independent. -/
def download_tracks (envs : List JobEnv) (force : Bool) : Except String Unit :=
  match envs with
  | [] => .ok ()
  | env :: rest =>
    match (download_track env force).result with
    | .error e => .error e
    | .ok _ => download_tracks rest force

/-- Mathematical clamp, as used in the spec's backoff formula
`clamp(current_delay * multiplier, base_delay, max_delay)`. -/
def clampQ (x lo hi : ℚ) : ℚ := min (max x lo) hi

/-- State of the shared limiter after `k` consecutive `on_failure` calls
starting from the default state, the `i`-th call happening at clock value
`times i`. -/
def iterate_failures (config : RateLimitConfig) (times : ℕ → ℚ) : ℕ → RateLimiterState
  | 0 => RateLimiterState.default
  | k + 1 =>
      (RateLimiter.on_failure config (times k) (iterate_failures config times k)).2

/-- Delay returned by the `(k+1)`-th consecutive `on_failure` call
(`delay_{k+1}` in the spec's numbering, which starts at `delay_1`). -/
def nth_delay (config : RateLimitConfig) (times : ℕ → ℚ) (k : ℕ) : ℚ≥0 :=
  (RateLimiter.on_failure config (times k) (iterate_failures config times k)).1

/-- A job whose metadata resolution fails and whose every other external call
would succeed. -/
def envMetaFail : JobEnv :=
  { metadata := .error "metadata failure"
    path_str := some "dest/track.flac"
    path_exists := false
    stream_open := .ok [.finished]
    encode := .ok ()
    write_to_file := .ok ()
    tags := .ok ()
    store_tags := .ok () }

/-- A job that reaches the Writing stage and fails there. -/
def envWriteFail : JobEnv :=
  { metadata := .ok "track"
    path_str := some "dest/track.flac"
    path_exists := false
    stream_open := .ok [.finished]
    encode := .ok ()
    write_to_file := .error "disk full"
    tags := .ok ()
    store_tags := .ok () }

/-- A job for which everything succeeds. -/
def envAllOk : JobEnv :=
  { metadata := .ok "other"
    path_str := some "dest/other.flac"
    path_exists := false
    stream_open := .ok [.finished]
    encode := .ok ()
    write_to_file := .ok ()
    tags := .ok ()
    store_tags := .ok () }

/-- A job whose destination file already exists. -/
def envExisting : JobEnv :=
  { metadata := .ok "track"
    path_str := some "dest/track.flac"
    path_exists := true
    stream_open := .error "stream opener must not be reached"
    encode := .ok ()
    write_to_file := .ok ()
    tags := .ok ()
    store_tags := .ok () }

/-!
## Theorems
-/

lemma new_multiplier_ge_one (b M : ℚ≥0) (m : F64) :
    ∃ q : ℚ, 1 ≤ q ∧ (RateLimitConfig.new b m M).multiplier = .finite q := by
  cases m with
  | finite q =>
      refine ⟨max q 1, le_max_right _ _, ?_⟩
      simp [RateLimitConfig.new, F64.isFinite, F64.fmax]
  | nan => exact ⟨1, le_refl 1, by simp [RateLimitConfig.new, F64.isFinite, F64.fmax]⟩
  | posInf => exact ⟨1, le_refl 1, by simp [RateLimitConfig.new, F64.isFinite, F64.fmax]⟩
  | negInf => exact ⟨1, le_refl 1, by simp [RateLimitConfig.new, F64.isFinite, F64.fmax]⟩

lemma new_base_le_max (b M : ℚ≥0) (m : F64) :
    (RateLimitConfig.new b m M).base_delay ≤ (RateLimitConfig.new b m M).max_delay := by
  simp only [RateLimitConfig.new]
  split
  · exact le_refl _
  · exact le_of_not_lt (by assumption)

lemma new_base_delay (b M : ℚ≥0) (m : F64) :
    (RateLimitConfig.new b m M).base_delay = b := rfl

/-- C6: `RateLimitConfig::new` silently normalises anomalies: a multiplier
that is non-finite or below 1 becomes exactly 1.0, a `max_delay` below
`base_delay` is raised to `base_delay`; no input is rejected and the resulting
config always satisfies `1 ≤ multiplier` (finite) and
`base_delay ≤ max_delay`. -/
theorem C6_config_normalization (b M : ℚ≥0) (m : F64) :
    ((m.isFinite = false ∨ ∃ q : ℚ, m = .finite q ∧ q < 1) →
        (RateLimitConfig.new b m M).multiplier = .finite 1)
    ∧ (M < b → (RateLimitConfig.new b m M).max_delay = b)
    ∧ (∃ q : ℚ, 1 ≤ q ∧ (RateLimitConfig.new b m M).multiplier = .finite q)
    ∧ (RateLimitConfig.new b m M).base_delay ≤ (RateLimitConfig.new b m M).max_delay := by
  refine ⟨?_, ?_, new_multiplier_ge_one b M m, new_base_le_max b M m⟩
  · rintro (hnf | ⟨q, rfl, hq⟩)
    · cases m with
      | finite q => simp [F64.isFinite] at hnf
      | nan => simp [RateLimitConfig.new, F64.isFinite, F64.fmax]
      | posInf => simp [RateLimitConfig.new, F64.isFinite, F64.fmax]
      | negInf => simp [RateLimitConfig.new, F64.isFinite, F64.fmax]
    · simp [RateLimitConfig.new, F64.isFinite, F64.fmax, max_eq_right (le_of_lt hq)]
  · intro h
    simp [RateLimitConfig.new, if_pos h]

/-- Closed instance of `C6_config_normalization`: a NaN multiplier becomes 1.0
and a `max_delay` of 1 below a `base_delay` of 2 is raised to 2. -/
theorem C6_config_normalization_witness :
    (RateLimitConfig.new 2 .nan 1).multiplier = .finite 1
    ∧ (RateLimitConfig.new 2 .nan 1).max_delay = 2 :=
  ⟨(C6_config_normalization 2 1 .nan).1 (Or.inl rfl),
   (C6_config_normalization 2 1 .nan).2.1 (by norm_num)⟩

/-- C7: with a disabled config (`base_delay == 0`), `wait_ready` returns
immediately without sleeping, `on_failure` returns a zero delay, and
`on_success` returns — none of the three touches the `RateLimiterState`. -/
theorem C7_disabled_noop (config : RateLimitConfig) (now : ℚ) (state : RateLimiterState)
    (h : config.base_delay = 0) :
    RateLimiter.wait_ready_step config now state = (none, state)
    ∧ RateLimiter.on_failure config now state = (0, state)
    ∧ RateLimiter.on_success config now state = state := by
  have hen : config.is_enabled = false := by
    simp [RateLimitConfig.is_enabled, h]
  refine ⟨?_, ?_, ?_⟩
  · simp [RateLimiter.wait_ready_step, hen]
  · simp [RateLimiter.on_failure, hen]
  · simp [RateLimiter.on_success, hen]

/-- Closed instance of `C7_disabled_noop` at the `disabled()` config. -/
theorem C7_disabled_noop_witness :
    RateLimiter.wait_ready_step RateLimitConfig.disabled 0
        { current_delay := 3, next_ready := some 7 }
      = (none, { current_delay := 3, next_ready := some 7 })
    ∧ RateLimiter.on_failure RateLimitConfig.disabled 0
        { current_delay := 3, next_ready := some 7 }
      = (0, { current_delay := 3, next_ready := some 7 })
    ∧ RateLimiter.on_success RateLimitConfig.disabled 0
        { current_delay := 3, next_ready := some 7 }
      = { current_delay := 3, next_ready := some 7 } :=
  C7_disabled_noop RateLimitConfig.disabled 0
    { current_delay := 3, next_ready := some 7 } rfl

/-- C4: for an enabled config with `reset_after_success`, `on_success` while a
strictly future deadline is pending changes nothing; with no pending deadline
or an elapsed one it resets `current_delay` to 0 and clears `next_ready`; with
`reset_after_success == false` it changes nothing. -/
theorem C4_on_success_frame (config : RateLimitConfig) (now : ℚ)
    (state : RateLimiterState) (hen : config.is_enabled = true) :
    (config.reset_after_success = true →
        (∀ t, state.next_ready = some t → now < t →
            RateLimiter.on_success config now state = state)
        ∧ ((state.next_ready = none ∨ ∃ t, state.next_ready = some t ∧ t ≤ now) →
            RateLimiter.on_success config now state
              = { current_delay := 0, next_ready := none }))
    ∧ (config.reset_after_success = false →
        RateLimiter.on_success config now state = state) := by
  constructor
  · intro hreset
    constructor
    · intro t ht hfut
      simp [RateLimiter.on_success, hen, hreset, ht, hfut]
    · rintro (hnone | ⟨t, ht, hpast⟩)
      · simp [RateLimiter.on_success, hen, hreset, hnone]
      · simp [RateLimiter.on_success, hen, hreset, ht, not_lt.mpr hpast]
  · intro hreset
    simp [RateLimiter.on_success, hen, hreset]

/-- Closed instance of `C4_on_success_frame`: with `base = 1`,
`reset_after_success = true`, a deadline at 5 seen at time 3 is kept
untouched, and the same deadline seen at time 6 is cleared. -/
theorem C4_on_success_frame_witness :
    RateLimiter.on_success (RateLimitConfig.new 1 (.finite 2) 10) 3
        { current_delay := 1, next_ready := some 5 }
      = { current_delay := 1, next_ready := some 5 }
    ∧ RateLimiter.on_success (RateLimitConfig.new 1 (.finite 2) 10) 6
        { current_delay := 1, next_ready := some 5 }
      = { current_delay := 0, next_ready := none } :=
  ⟨((C4_on_success_frame (RateLimitConfig.new 1 (.finite 2) 10) 3
      { current_delay := 1, next_ready := some 5 } (by decide)).1 rfl).1
        5 rfl (by norm_num),
   ((C4_on_success_frame (RateLimitConfig.new 1 (.finite 2) 10) 6
      { current_delay := 1, next_ready := some 5 } (by decide)).1 rfl).2
        (Or.inr ⟨5, rfl, by norm_num⟩)⟩

/-- C5: when the destination file exists and `force` is off (and the job got
past metadata resolution and path construction, which precede the existence
check), `download_track` returns `Ok(())`, never invokes the stream source,
and its only limiter calls are the initial `wait_ready` and the final
`on_success`. -/
theorem C5_skip_existing (env : JobEnv) (label path : String)
    (hmd : env.metadata = .ok label) (hp : env.path_str = some path)
    (hex : env.path_exists = true) :
    download_track env false
      = { result := .ok ()
          stream_invoked := false
          limiter_calls := [.waitReady, .onSuccess] } := by
  simp [download_track, hmd, hp, hex]

/-- Closed instance of `C5_skip_existing` on `envExisting`. -/
theorem C5_skip_existing_witness :
    download_track envExisting false
      = { result := .ok ()
          stream_invoked := false
          limiter_calls := [.waitReady, .onSuccess] } :=
  C5_skip_existing envExisting "track" "dest/track.flac" rfl rfl rfl

/-- C8: one step of the buffering loop per event kind — `Write` moves the
progress position to `bytes` and appends the chunk in arrival order, `Retry`
rewrites only the displayed message, `Error` terminates with `Err`, `Finished`
terminates with the accumulated samples — and the concrete scenario
`Write(50,100,A); Write(100,100,B); Finished` yields samples `A ++ B` with
final position 100. -/
theorem C8_buffering (label : String) (rest : List StreamEvent)
    (pb : ProgressModel) (acc : List Int) :
    (∀ (bytes total : ℕ) (content : List Int),
        buffer_track label (.write bytes total content :: rest) pb acc
          = buffer_track label rest { pb with position := bytes } (acc ++ content))
    ∧ (∀ attempt max_attempts : ℕ,
        buffer_track label (.retry attempt max_attempts :: rest) pb acc
          = buffer_track label rest
              { pb with message :=
                  "Retrying (" ++ toString attempt ++ "/" ++ toString max_attempts
                    ++ ") " ++ label }
              acc)
    ∧ (∀ detail : String,
        buffer_track label (.error detail :: rest) pb acc
          = .error ("Streaming error: " ++ detail))
    ∧ (buffer_track label (.finished :: rest) pb acc = .ok (acc, pb))
    ∧ (∀ A B : List Int,
        buffer_track label
            [.write 50 100 A, .write 100 100 B, .finished] pb acc
          = .ok (acc ++ A ++ B, { pb with position := 100 })) := by
  refine ⟨?_, ?_, ?_, ?_, ?_⟩
  · intro bytes total content
    simp [buffer_track]
  · intro attempt max_attempts
    simp [buffer_track]
  · intro detail
    simp [buffer_track]
  · simp [buffer_track]
  · intro A B
    simp [buffer_track]

/-- C3: for an enabled config, one `wait_ready` loop iteration returns only
when no future deadline is stored: with no deadline it returns leaving state
alone; with an elapsed deadline it clears it and returns; with a future
deadline it suspends for exactly the remaining duration `t - now` (a nonzero
sleep, so the loop never spins) leaving state alone, and — absent interference
— the re-check after that sleep, at clock `now + (t - now)`, clears the
deadline and returns. -/
theorem C3_wait_ready_protocol (config : RateLimitConfig) (now : ℚ)
    (state : RateLimiterState) (hen : config.is_enabled = true) :
    ((RateLimiter.wait_ready_step config now state).1 = none →
        ∀ t, state.next_ready = some t → t ≤ now)
    ∧ (state.next_ready = none →
        RateLimiter.wait_ready_step config now state = (none, state))
    ∧ (∀ t, state.next_ready = some t → t ≤ now →
        RateLimiter.wait_ready_step config now state
          = (none, { state with next_ready := none }))
    ∧ (∀ t, state.next_ready = some t → now < t →
        RateLimiter.wait_ready_step config now state
            = (some (t - now).toNNRat, state)
        ∧ (t - now).toNNRat ≠ 0
        ∧ RateLimiter.wait_ready_step config (now + ((t - now).toNNRat : ℚ)) state
            = (none, { state with next_ready := none })) := by
  refine ⟨?_, ?_, ?_, ?_⟩
  · intro hret t ht
    by_contra hfut
    rw [not_le] at hfut
    simp [RateLimiter.wait_ready_step, hen, ht, hfut] at hret
  · intro hnone
    simp [RateLimiter.wait_ready_step, hen, hnone]
  · intro t ht hpast
    simp [RateLimiter.wait_ready_step, hen, ht, not_lt.mpr hpast]
  · intro t ht hfut
    have hpos : (0 : ℚ) < t - now := by linarith
    have hcoe : ((t - now).toNNRat : ℚ) = t - now := Rat.coe_toNNRat _ (le_of_lt hpos)
    refine ⟨by simp [RateLimiter.wait_ready_step, hen, ht, hfut], ?_, ?_⟩
    · intro hzero
      rw [hzero] at hcoe
      simp at hcoe
      linarith
    · have : ¬ (now + ((t - now).toNNRat : ℚ) < t) := by
        rw [hcoe]; linarith
      simp [RateLimiter.wait_ready_step, hen, ht, this]

/-- Closed instance of `C3_wait_ready_protocol`: config `base = 1`, deadline
at 10 observed at time 4 sleeps 6 and leaves state alone; observed again at
time 10 it clears the deadline and returns. -/
theorem C3_wait_ready_protocol_witness :
    RateLimiter.wait_ready_step (RateLimitConfig.new 1 (.finite 2) 10) 4
        { current_delay := 1, next_ready := some 10 }
      = (some ((10 : ℚ) - 4).toNNRat, { current_delay := 1, next_ready := some 10 })
    ∧ RateLimiter.wait_ready_step (RateLimitConfig.new 1 (.finite 2) 10)
        (4 + (((10 : ℚ) - 4).toNNRat : ℚ))
        { current_delay := 1, next_ready := some 10 }
      = (none, { current_delay := 1, next_ready := none }) :=
  ⟨(((C3_wait_ready_protocol (RateLimitConfig.new 1 (.finite 2) 10) 4
      { current_delay := 1, next_ready := some 10 } (by decide)).2.2.2)
        10 rfl (by norm_num)).1,
   (((C3_wait_ready_protocol (RateLimitConfig.new 1 (.finite 2) 10) 4
      { current_delay := 1, next_ready := some 10 } (by decide)).2.2.2)
        10 rfl (by norm_num)).2.2⟩

lemma enabled_base_ne_zero (config : RateLimitConfig) (hen : config.is_enabled = true) :
    config.base_delay ≠ 0 := by
  have h := hen
  simp only [RateLimitConfig.is_enabled, decide_eq_true_eq] at h
  exact h

lemma on_failure_char (config : RateLimitConfig) (m : ℚ) (now : ℚ)
    (state : RateLimiterState) (hen : config.is_enabled = true)
    (hm : config.multiplier = .finite m) (hm1 : 1 ≤ m) :
    config.base_delay ≤ (RateLimiter.on_failure config now state).1
    ∧ ((RateLimiter.on_failure config now state).1 : ℚ)
        = (if state.current_delay = 0 then (config.base_delay : ℚ)
           else clampQ ((state.current_delay : ℚ) * m) (config.base_delay : ℚ)
                  ((max config.max_delay config.base_delay : ℚ≥0) : ℚ))
    ∧ (RateLimiter.on_failure config now state).2.current_delay
        = (RateLimiter.on_failure config now state).1
    ∧ (state.next_ready = none →
        (RateLimiter.on_failure config now state).2.next_ready
          = some (now + ((RateLimiter.on_failure config now state).1 : ℚ)))
    ∧ (∀ ex, state.next_ready = some ex →
        (RateLimiter.on_failure config now state).2.next_ready
          = some (max ex (now + ((RateLimiter.on_failure config now state).1 : ℚ)))) := by
  have hb0 : config.base_delay ≠ 0 := enabled_base_ne_zero config hen
  have hifmax : ∀ p ex : ℚ,
      (if p < ex then some ex else some p) = some (max ex p) := by
    intro p ex
    split
    · rw [max_eq_left (le_of_lt (by assumption))]
    · rw [max_eq_right (not_lt.mp (by assumption))]
  by_cases hc : state.current_delay = 0
  · have heq : RateLimiter.on_failure config now state
        = (config.base_delay,
           { current_delay := config.base_delay,
             next_ready :=
               match state.next_ready with
               | some existing =>
                   if now + (config.base_delay : ℚ) < existing then some existing
                   else some (now + (config.base_delay : ℚ))
               | none => some (now + (config.base_delay : ℚ)) }) := by
      simp [RateLimiter.on_failure, hen, hc, hb0]
    rw [heq]
    refine ⟨le_refl _, by simp [hc], rfl, ?_, ?_⟩
    · intro hnone
      simp [hnone]
    · intro ex hex
      simp only [hex, hifmax]
  · have hmul : config.multiplier.fmax (.finite 1) = .finite m := by
      rw [hm]
      simp [F64.fmax, max_eq_left hm1]
    have hscaled : (durationToF64 state.current_delay).mul
          (config.multiplier.fmax (.finite 1))
        = .finite ((state.current_delay : ℚ) * m) := by
      rw [hmul]
      simp [durationToF64, F64.mul]
    have hclamp : ((((durationToF64 state.current_delay).mul
            (config.multiplier.fmax (.finite 1))).fmax
            (durationToF64 config.base_delay)).fmin
            (durationToF64 (max config.max_delay config.base_delay)))
        = .finite (clampQ ((state.current_delay : ℚ) * m) (config.base_delay : ℚ)
            ((max config.max_delay config.base_delay : ℚ≥0) : ℚ)) := by
      rw [hscaled]
      simp [durationToF64, F64.fmax, F64.fmin, clampQ]
    set v : ℚ := clampQ ((state.current_delay : ℚ) * m) (config.base_delay : ℚ)
        ((max config.max_delay config.base_delay : ℚ≥0) : ℚ) with hv
    have hvb : (config.base_delay : ℚ) ≤ v := by
      rw [hv, clampQ]
      refine le_min (le_max_right _ _) ?_
      rw [NNRat.coe_max]
      exact le_max_right _ _
    have hvnonneg : (0 : ℚ) ≤ v := le_trans (NNRat.coe_nonneg _) hvb
    have hcoe : ((v.toNNRat : ℚ≥0) : ℚ) = v := Rat.coe_toNNRat v hvnonneg
    have hble : config.base_delay ≤ v.toNNRat := by
      rw [← NNRat.coe_le_coe, hcoe]
      exact hvb
    have hdne : v.toNNRat ≠ 0 := by
      intro h0
      rw [h0] at hble
      exact hb0 (le_antisymm hble (zero_le _))
    have heq : RateLimiter.on_failure config now state
        = (v.toNNRat,
           { current_delay := v.toNNRat,
             next_ready :=
               match state.next_ready with
               | some existing =>
                   if now + (v.toNNRat : ℚ) < existing then some existing
                   else some (now + (v.toNNRat : ℚ))
               | none => some (now + (v.toNNRat : ℚ)) }) := by
      simp only [RateLimiter.on_failure, hen, Bool.true_eq_false, if_false, hc, if_neg hc,
        if_false, hclamp, F64.toDuration, if_neg hdne]
    rw [heq]
    refine ⟨hble, by simp [hc, hcoe], rfl, ?_, ?_⟩
    · intro hnone
      simp [hnone]
    · intro ex hex
      simp only [hex, hifmax]

/-- C2: for an enabled config (with its finite multiplier `m ≥ 1` and
`base_delay ≤ max_delay`, the invariants `RateLimitConfig::new` establishes),
`on_failure` returns `base_delay` when `current_delay == 0` and
`clamp(current_delay * m, base_delay, max_delay)` otherwise; it stores that
delay in `current_delay`; it sets `next_ready` to
`max(existing_next_ready, now + delay)`, so a pending deadline is never
shortened; and the delay sequence of `N` consecutive failures from the default
state satisfies `delay_1 = base` and `delay_{k+1} = clamp(delay_k * m, base,
max)`. -/
theorem C2_on_failure_backoff (config : RateLimitConfig) (m : ℚ) (now : ℚ)
    (state : RateLimiterState) (times : ℕ → ℚ)
    (hen : config.is_enabled = true) (hm : config.multiplier = .finite m)
    (hm1 : 1 ≤ m) (hbM : config.base_delay ≤ config.max_delay) :
    (state.current_delay = 0 →
        (RateLimiter.on_failure config now state).1 = config.base_delay)
    ∧ (state.current_delay ≠ 0 →
        ((RateLimiter.on_failure config now state).1 : ℚ)
          = clampQ ((state.current_delay : ℚ) * m) (config.base_delay : ℚ)
              (config.max_delay : ℚ))
    ∧ (RateLimiter.on_failure config now state).2.current_delay
        = (RateLimiter.on_failure config now state).1
    ∧ (state.next_ready = none →
        (RateLimiter.on_failure config now state).2.next_ready
          = some (now + ((RateLimiter.on_failure config now state).1 : ℚ)))
    ∧ (∀ ex, state.next_ready = some ex →
        (RateLimiter.on_failure config now state).2.next_ready
          = some (max ex (now + ((RateLimiter.on_failure config now state).1 : ℚ)))
        ∧ ∀ t, (RateLimiter.on_failure config now state).2.next_ready = some t →
            ex ≤ t)
    ∧ (nth_delay config times 0 = config.base_delay)
    ∧ (∀ k, (nth_delay config times (k + 1) : ℚ)
          = clampQ ((nth_delay config times k : ℚ) * m) (config.base_delay : ℚ)
              (config.max_delay : ℚ)) := by
  have hMb : max config.max_delay config.base_delay = config.max_delay :=
    max_eq_left hbM
  have hchar := fun (now' : ℚ) (state' : RateLimiterState) =>
    on_failure_char config m now' state' hen hm hm1
  have hzero : ∀ now' state', state'.current_delay = 0 →
      (RateLimiter.on_failure config now' state').1 = config.base_delay := by
    intro now' state' hc
    have h2 := (hchar now' state').2.1
    rw [if_pos hc] at h2
    exact NNRat.coe_injective h2
  have hpos : ∀ now' state', state'.current_delay ≠ 0 →
      ((RateLimiter.on_failure config now' state').1 : ℚ)
        = clampQ ((state'.current_delay : ℚ) * m) (config.base_delay : ℚ)
            (config.max_delay : ℚ) := by
    intro now' state' hc
    have h2 := (hchar now' state').2.1
    rw [if_neg hc, hMb] at h2
    exact h2
  have hne : ∀ now' state', (RateLimiter.on_failure config now' state').1 ≠ 0 := by
    intro now' state' h0
    have h1 := (hchar now' state').1
    rw [h0] at h1
    exact enabled_base_ne_zero config hen (le_antisymm h1 (zero_le _))
  have hcurstep : ∀ k, (iterate_failures config times (k + 1)).current_delay
      = nth_delay config times k := by
    intro k
    exact (hchar (times k) (iterate_failures config times k)).2.2.1
  refine ⟨hzero now state, hpos now state, (hchar now state).2.2.1,
    (hchar now state).2.2.2.1, ?_, ?_, ?_⟩
  · intro ex hex
    refine ⟨(hchar now state).2.2.2.2 ex hex, ?_⟩
    intro t ht
    rw [(hchar now state).2.2.2.2 ex hex] at ht
    have : t = max ex (now + ((RateLimiter.on_failure config now state).1 : ℚ)) :=
      (Option.some_injective _ ht).symm
    rw [this]
    exact le_max_left _ _
  · exact hzero (times 0) (iterate_failures config times 0) rfl
  · intro k
    have hcd : (iterate_failures config times (k + 1)).current_delay ≠ 0 := by
      rw [hcurstep k]
      exact hne (times k) (iterate_failures config times k)
    have := hpos (times (k + 1)) (iterate_failures config times (k + 1)) hcd
    rw [hcurstep k] at this
    exact this

/-- Closed instance of `C2_on_failure_backoff` at `base = 1`, `m = 2`,
`max = 10`: the first failure's delay is `base` and the second failure's delay
satisfies the clamp recurrence. -/
theorem C2_on_failure_backoff_witness :
    (RateLimiter.on_failure (RateLimitConfig.new 1 (.finite 2) 10) 0
        RateLimiterState.default).1 = 1
    ∧ (nth_delay (RateLimitConfig.new 1 (.finite 2) 10) (fun _ => 0) 1 : ℚ)
        = clampQ ((nth_delay (RateLimitConfig.new 1 (.finite 2) 10) (fun _ => 0) 0 : ℚ) * 2)
            1 10 :=
  ⟨(C2_on_failure_backoff (RateLimitConfig.new 1 (.finite 2) 10) 2 0
      RateLimiterState.default (fun _ => 0)
      (by norm_num [RateLimitConfig.is_enabled, RateLimitConfig.new])
      rfl (by norm_num) (by norm_num [RateLimitConfig.new])).1 rfl,
   (C2_on_failure_backoff (RateLimitConfig.new 1 (.finite 2) 10) 2 0
      RateLimiterState.default (fun _ => 0)
      (by norm_num [RateLimitConfig.is_enabled, RateLimitConfig.new])
      rfl (by norm_num) (by norm_num [RateLimitConfig.new])).2.2.2.2.2.2 0⟩

/-- C10: for any config produced by `RateLimitConfig::new` with a nonzero
`base_delay`, `on_failure` always returns a delay in
`[base_delay, max_delay]`; the delay is never zero and the internal zero-delay
reset branch (which would clear `next_ready`) is never taken — the updated
state always carries a deadline. -/
theorem C10_new_config_delay_bounds (b M : ℚ≥0) (mf : F64) (now : ℚ)
    (state : RateLimiterState) (hb : b ≠ 0) :
    b ≤ (RateLimiter.on_failure (RateLimitConfig.new b mf M) now state).1
    ∧ (RateLimiter.on_failure (RateLimitConfig.new b mf M) now state).1
        ≤ (RateLimitConfig.new b mf M).max_delay
    ∧ (RateLimiter.on_failure (RateLimitConfig.new b mf M) now state).1 ≠ 0
    ∧ (RateLimiter.on_failure (RateLimitConfig.new b mf M) now state).2.next_ready
        ≠ none := by
  obtain ⟨m, hm1, hm⟩ := new_multiplier_ge_one b M mf
  have hen : (RateLimitConfig.new b mf M).is_enabled = true := by
    simp only [RateLimitConfig.is_enabled, new_base_delay, decide_eq_true_eq]
    exact hb
  have hchar := on_failure_char (RateLimitConfig.new b mf M) m now state hen hm hm1
  have hbase : (RateLimitConfig.new b mf M).base_delay = b := new_base_delay b M mf
  have h1 : b ≤ (RateLimiter.on_failure (RateLimitConfig.new b mf M) now state).1 := by
    rw [← hbase]
    exact hchar.1
  have hMb : max (RateLimitConfig.new b mf M).max_delay
        (RateLimitConfig.new b mf M).base_delay
      = (RateLimitConfig.new b mf M).max_delay :=
    max_eq_left (new_base_le_max b M mf)
  have h2 : (RateLimiter.on_failure (RateLimitConfig.new b mf M) now state).1
      ≤ (RateLimitConfig.new b mf M).max_delay := by
    have hc2 := hchar.2.1
    rw [hMb] at hc2
    by_cases hc : state.current_delay = 0
    · rw [if_pos hc] at hc2
      have : (RateLimiter.on_failure (RateLimitConfig.new b mf M) now state).1
          = (RateLimitConfig.new b mf M).base_delay := NNRat.coe_injective hc2
      rw [this]
      exact new_base_le_max b M mf
    · rw [if_neg hc] at hc2
      rw [← NNRat.coe_le_coe, hc2, clampQ]
      exact min_le_right _ _
  have h3 : (RateLimiter.on_failure (RateLimitConfig.new b mf M) now state).1 ≠ 0 := by
    intro h0
    rw [h0] at h1
    exact hb (le_antisymm h1 (zero_le _))
  refine ⟨h1, h2, h3, ?_⟩
  cases hnr : state.next_ready with
  | none =>
      rw [hchar.2.2.2.1 hnr]
      exact Option.some_ne_none _
  | some ex =>
      rw [hchar.2.2.2.2 ex hnr]
      exact Option.some_ne_none _

/-- Closed instance of `C10_new_config_delay_bounds`: `new(1, NaN, 0)` (a
max below base, raised to 1) at a state with `current_delay = 3` and a stale
deadline. -/
theorem C10_new_config_delay_bounds_witness :
    (1 : ℚ≥0) ≤ (RateLimiter.on_failure (RateLimitConfig.new 1 .nan 0) 5
        { current_delay := 3, next_ready := some 2 }).1
    ∧ (RateLimiter.on_failure (RateLimitConfig.new 1 .nan 0) 5
        { current_delay := 3, next_ready := some 2 }).1
        ≤ (RateLimitConfig.new 1 .nan 0).max_delay
    ∧ (RateLimiter.on_failure (RateLimitConfig.new 1 .nan 0) 5
        { current_delay := 3, next_ready := some 2 }).1 ≠ 0
    ∧ (RateLimiter.on_failure (RateLimitConfig.new 1 .nan 0) 5
        { current_delay := 3, next_ready := some 2 }).2.next_ready ≠ none :=
  C10_new_config_delay_bounds 1 0 .nan 5
    { current_delay := 3, next_ready := some 2 } (by norm_num)

lemma download_tracks_ok_iff (envs : List JobEnv) (force : Bool) :
    download_tracks envs force = .ok () ↔
      ∀ env ∈ envs, (download_track env force).result = .ok () := by
  induction envs with
  | nil => simp [download_tracks]
  | cons e rest ih =>
      cases hres : (download_track e force).result with
      | error err =>
          simp only [download_tracks, hres]
          constructor
          · intro h
            exact absurd h (by simp)
          · intro h
            have he := h e (List.mem_cons_self e rest)
            rw [hres] at he
            exact absurd he (by simp)
      | ok u =>
          cases u
          simp only [download_tracks, hres]
          rw [ih]
          constructor
          · intro h env henv
            rcases List.mem_cons.mp henv with rfl | hmem
            · exact hres
            · exact h env hmem
          · intro h env henv
            exact h env (List.mem_cons_of_mem _ henv)

lemma download_tracks_first_error (pre post : List JobEnv) (env : JobEnv)
    (force : Bool) (e : String)
    (hpre : ∀ env' ∈ pre, (download_track env' force).result = .ok ())
    (he : (download_track env force).result = .error e) :
    download_tracks (pre ++ env :: post) force = .error e := by
  induction pre with
  | nil => simp only [List.nil_append, download_tracks, he]
  | cons p rest ih =>
      have hp := hpre p (List.mem_cons_self p rest)
      simp only [List.cons_append, download_tracks, hp]
      exact ih (fun env' h => hpre env' (List.mem_cons_of_mem _ h))

/-- The claim "a metadata-resolution failure is a soft per-job error that is
converted to a successful-shaped result and never fails the batch" is false on
the code: `track.metadata(...).await?` propagates the error.  Concretely, on a
job whose metadata resolution fails (and whose every other collaborator would
succeed), `download_track` returns `Err`, never calls `on_failure` (no
backoff), and the batch call on that single job reports overall failure. -/
theorem C1_counterexample_meta_soft :
    (download_track envMetaFail false).result = .error "metadata failure"
    ∧ LimiterCall.onFailure ∉ (download_track envMetaFail false).limiter_calls
    ∧ download_tracks [envMetaFail] false = .error "metadata failure" :=
  ⟨rfl, by decide, rfl⟩

/-- C1 (amended): a metadata-resolution failure is fatal, not soft: the job's
`download_track` returns `Err` with the resolver's error, triggers no backoff
(`on_failure` is not called) and never reaches the stream source, and the
error propagates through the fan-in so the batch call `download_tracks`
reports overall failure (it is `Err`; when the preceding jobs succeed it is
exactly this job's error). -/
theorem C1_metadata_failure_is_fatal (env : JobEnv) (force : Bool) (e : String)
    (h : env.metadata = .error e) :
    download_track env force
      = { result := .error e
          stream_invoked := false
          limiter_calls := [.waitReady] }
    ∧ (∀ pre post : List JobEnv,
        (∀ env' ∈ pre, (download_track env' force).result = .ok ()) →
        download_tracks (pre ++ env :: post) force = .error e)
    ∧ (∀ envs : List JobEnv, env ∈ envs → download_tracks envs force ≠ .ok ()) := by
  have hdt : download_track env force
      = { result := .error e
          stream_invoked := false
          limiter_calls := [.waitReady] } := by
    simp [download_track, h]
  refine ⟨hdt, ?_, ?_⟩
  · intro pre post hpre
    apply download_tracks_first_error pre post env force e hpre
    rw [hdt]
  · intro envs hmem hok
    have hres := (download_tracks_ok_iff envs force).mp hok env hmem
    rw [hdt] at hres
    exact absurd hres (by simp)

/-- Closed instance of `C1_metadata_failure_is_fatal` on `envMetaFail`,
batched behind a succeeding job. -/
theorem C1_metadata_failure_is_fatal_witness :
    download_track envMetaFail false
      = { result := .error "metadata failure"
          stream_invoked := false
          limiter_calls := [.waitReady] }
    ∧ download_tracks [envAllOk, envMetaFail] false ≠ .ok () :=
  ⟨(C1_metadata_failure_is_fatal envMetaFail false "metadata failure" rfl).1,
   (C1_metadata_failure_is_fatal envMetaFail false "metadata failure" rfl).2.2
      [envAllOk, envMetaFail] (by decide)⟩

/-- C9: a Writing-stage failure is fatal: `download_track` returns the write
error unmodified (no backoff, no `on_success`), and wherever the job sits in
the batch — regardless of the other jobs' outcomes — `download_tracks` does
not report success; when every earlier job succeeds, the batch error is
exactly the write error. -/
theorem C9_writing_failure_fatal (env : JobEnv) (force : Bool)
    (label path e : String) (events : List StreamEvent)
    (hmd : env.metadata = .ok label) (hp : env.path_str = some path)
    (hskip : ¬ (force = false ∧ env.path_exists = true))
    (hstream : env.stream_open = .ok events)
    (hbuf : ∃ r, buffer_track label events ⟨0, label⟩ [] = .ok r)
    (henc : env.encode = .ok ())
    (hwrite : env.write_to_file = .error e) :
    download_track env force
      = { result := .error e
          stream_invoked := true
          limiter_calls := [.waitReady] }
    ∧ (∀ pre post : List JobEnv,
        (∀ env' ∈ pre, (download_track env' force).result = .ok ()) →
        download_tracks (pre ++ env :: post) force = .error e)
    ∧ (∀ envs : List JobEnv, env ∈ envs → download_tracks envs force ≠ .ok ()) := by
  obtain ⟨r, hr⟩ := hbuf
  have hdt : download_track env force
      = { result := .error e
          stream_invoked := true
          limiter_calls := [.waitReady] } := by
    simp [download_track, hmd, hp, hskip, hstream, hr, henc, hwrite]
  refine ⟨hdt, ?_, ?_⟩
  · intro pre post hpre
    apply download_tracks_first_error pre post env force e hpre
    rw [hdt]
  · intro envs hmem hok
    have hres := (download_tracks_ok_iff envs force).mp hok env hmem
    rw [hdt] at hres
    exact absurd hres (by simp)

/-- Closed instance of `C9_writing_failure_fatal` on `envWriteFail`, batched
behind a succeeding job. -/
theorem C9_writing_failure_fatal_witness :
    download_track envWriteFail false
      = { result := .error "disk full"
          stream_invoked := true
          limiter_calls := [.waitReady] }
    ∧ download_tracks [envAllOk, envWriteFail] false ≠ .ok () :=
  ⟨(C9_writing_failure_fatal envWriteFail false "track" "dest/track.flac" "disk full"
      [.finished] rfl rfl (by decide) rfl ⟨([], ⟨0, "track"⟩), rfl⟩ rfl rfl).1,
   (C9_writing_failure_fatal envWriteFail false "track" "dest/track.flac" "disk full"
      [.finished] rfl rfl (by decide) rfl ⟨([], ⟨0, "track"⟩), rfl⟩ rfl rfl).2.2
      [envAllOk, envWriteFail] (by decide)⟩
